import Mathlib

/-!
Verification of the pyshell pipeline engine
(src/pyshell/pipeline/core.py, src/pyshell/pipeline/pipe.py, src/pyshell/core.py).

The embedding follows the Python source closely:

* A pipe state dictionary (built in Pipe.__init__ via
  State.fromkeys(["initialized","included","primed","replaced","triggered",
  "started","excepted","completed","finished"], False)) is modelled by the
  structure PipeState.  Crucially, the source list omits the "excluded" key,
  while Pipeline.parse may add it via set_state("excluded") and
  Pipeline._unprimed reads state["excluded"] unconditionally.  The field
  excluded therefore has type Option Bool: none models an absent dictionary
  key (reading it raises KeyError), some b models a present key of boolean
  value b.

* Python exceptions raised by the pipeline code are modelled by PyErr and
  Except PyErr.  The recursion in Pipeline._resolve is not structurally
  terminating in the source (a self-dependent pipe recurses forever), so the
  Lean embedding takes a fuel argument; exhausting fuel yields the
  distinguished recursionError, which no theorem below identifies with any
  behaviour of the source.

* Pipe.run is modelled denotationally by Pipe.run below, with the behaviour
  of the action abstracted as an ActionRes and the Python distinction
  between Exception-derived and BaseException-only exceptions (the source
  catches with a bare "except Exception:") carried by Exc.isException.
-/

namespace Pyshell

/-- Python exceptions that the modelled code can raise. -/
inductive PyErr where
  /-- KeyError raised by reading a missing key of a state dictionary. -/
  | keyError (key : String)
  /-- PipelineStateException (pipeline/core.py). -/
  | stateError (msg : String)
  /-- ValueError raised by Typedkwargs._parse_keyword_args (core.py line 38). -/
  | valueError (msg : String)
  /-- TypeError, e.g. raised by the list(value) coercion on a non-iterable. -/
  | typeError (msg : String)
  /-- argparse parser.error, a user-facing usage error (core.py line 358). -/
  | usageError (msg : String)
  /-- NameError (register_pipe line 174 references an unbound variable). -/
  | nameError (name : String)
  /-- Marker for fuel exhaustion of the embedded recursion; corresponds to
  a Python RecursionError / nontermination, never to a normal result. -/
  | recursionError
deriving DecidableEq, Repr

/-- The boolean view of one pipe state dictionary (Stateful.state,
src/pyshell/core.py lines 59-62).  All keys installed by Pipe.__init__ are
plain booleans; the "excluded" key, absent from the fromkeys list at
pipe.py line 37, is an Option: none means the key is missing. -/
structure PipeState where
  initialized : Bool := false
  included : Bool := false
  /-- none: no "excluded" key in the dictionary; some b: key present with
  boolean value b (set_state stores a truthy timestamp, del_state False). -/
  excluded : Option Bool := none
  primed : Bool := false
  replaced : Bool := false
  triggered : Bool := false
  started : Bool := false
  excepted : Bool := false
  completed : Bool := false
  finished : Bool := false
  /-- The parent attribute assigned during resolution (a keyword of Pipe,
  default str() = ""). -/
  parentAttr : String := ""
deriving DecidableEq, Repr

/-- Assignment of a state to every pipe name. -/
def Flags : Type := String → PipeState

/-- State of a freshly constructed and parsed pipe, exactly as the source
builds it: Pipe.__init__ leaves every flag False and sets "initialized";
Pipeline.parse then calls set_state("included") for names in the include
selection and set_state("excluded") for names in the exclude selection.
A pipe outside the exclude selection has NO "excluded" key. -/
def initState (incl excl : List String) : Flags := fun n =>
  { initialized := true
    included := decide (n ∈ incl)
    excluded := if n ∈ excl then some true else none }

/-- The pipe state family the source evidently intends (the spec lists
"excluded" among the state keys): identical to initState except that the
"excluded" key is always present, False unless the pipe was excluded. -/
def initStateK (incl excl : List String) : Flags := fun n =>
  { initialized := true
    included := decide (n ∈ incl)
    excluded := some (decide (n ∈ excl)) }

/-- The immutable registration data of one pipe: its name and the
dependencies / triggers / replaces keyword lists (pipe.py lines 22-31). -/
structure PipeMeta where
  name : String
  dependencies : List String := []
  triggers : List String := []
  replaces : List String := []
deriving DecidableEq, Repr

/-- Update the state of the pipe named n. -/
def setF (f : Flags) (n : String) (g : PipeState → PipeState) : Flags :=
  fun m => if m = n then g (f n) else f m

/-- set_state("primed") on pipe n (core.py line 297). -/
def prime (f : Flags) (n : String) : Flags :=
  setF f n (fun s => { s with primed := true })

/-- set_state("triggered") on pipe n (core.py line 327). -/
def markTriggered (f : Flags) (n : String) : Flags :=
  setF f n (fun s => { s with triggered := true })

/-- pipe.parent = parent_pipe.name (core.py lines 314, 326). -/
def setParent (f : Flags) (n parent : String) : Flags :=
  setF f n (fun s => { s with parentAttr := parent })

/-- Pipeline._resolve_replaces (core.py lines 330-334): every pipe whose
name appears in the replaces list of the parent is marked replaced,
unconditionally. -/
def markReplaces (f : Flags) (replaces : List String) : Flags :=
  fun m => if m ∈ replaces then { f m with replaced := true } else f m

/-- Pipeline._unprimed (core.py lines 301-303):
not pipe.state["primed"] and not pipe.state["excluded"].
Python evaluation order: if the pipe is primed the conjunction
short-circuits to False without reading "excluded"; otherwise reading a
missing "excluded" key raises KeyError. -/
def Pipeline._unprimed (s : PipeState) : Except PyErr Bool :=
  if s.primed then .ok false
  else match s.excluded with
    | none => .error (.keyError "excluded")
    | some b => .ok (!b)

/-- The PipelineStateException message of core.py line 313, after the
format substitution a := parent name, b := dependency name. -/
def dependMsg (a b : String) : String :=
  "Pipe " ++ a ++ " cannot depend on pipe " ++ b ++ " because " ++ a ++
    " must run before " ++ b

/-- The PipelineStateException message of core.py line 325. -/
def triggerMsg (a b : String) : String :=
  "Pipe " ++ a ++ " cannot trigger pipe " ++ b ++ " because " ++ a ++
    " must run after " ++ b

/-- Pipeline._resolve_dependents (core.py lines 305-315), as a fold of the
loop body over the reversed pipe list.  The recursive call to
Pipeline._resolve is abstracted as resolveF.  The scan list is
reversed(self.pipes.values()); oe is the order_error local (initially
True). -/
def Pipeline._resolve_dependents
    (resolveF : PipeMeta → Flags → Except PyErr Flags) (parent : PipeMeta) :
    List PipeMeta → Bool → Flags → Except PyErr Flags
  | [], _, f => .ok f
  | q :: rest, oe, f =>
    let oe := if q.name = parent.name then false else oe
    if q.name ∈ parent.dependencies then
      match Pipeline._unprimed (f q.name) with
      | .error e => .error e
      | .ok b =>
        if b then
          if oe then .error (.stateError (dependMsg parent.name q.name))
          else
            match resolveF q (setParent f q.name parent.name) with
            | .error e => .error e
            | .ok f => Pipeline._resolve_dependents resolveF parent rest oe f
        else Pipeline._resolve_dependents resolveF parent rest oe f
    else Pipeline._resolve_dependents resolveF parent rest oe f

/-- Pipeline._resolve_triggers (core.py lines 317-328).  oe is the
order_error local (initially False, set once the scan passes the parent);
a trigger target must additionally not be explicitly included. -/
def Pipeline._resolve_triggers
    (resolveF : PipeMeta → Flags → Except PyErr Flags) (parent : PipeMeta) :
    List PipeMeta → Bool → Flags → Except PyErr Flags
  | [], _, f => .ok f
  | q :: rest, oe, f =>
    let oe := if q.name = parent.name then true else oe
    if q.name ∈ parent.triggers then
      match Pipeline._unprimed (f q.name) with
      | .error e => .error e
      | .ok b =>
        if b && !(f q.name).included then
          if oe then .error (.stateError (triggerMsg parent.name q.name))
          else
            match resolveF q (markTriggered (setParent f q.name parent.name) q.name) with
            | .error e => .error e
            | .ok f => Pipeline._resolve_triggers resolveF parent rest oe f
        else Pipeline._resolve_triggers resolveF parent rest oe f
    else Pipeline._resolve_triggers resolveF parent rest oe f

/-- Pipeline._resolve (core.py lines 294-299): resolve dependents, mark
primed, resolve triggers, resolve replaces.  reg is the registration-order
pipe list (self.pipes.values()); fuel bounds the recursion depth. -/
def Pipeline._resolve (reg : List PipeMeta) :
    Nat → PipeMeta → Flags → Except PyErr Flags
  | 0, _, _ => .error .recursionError
  | fuel + 1, p, f =>
    match Pipeline._resolve_dependents (Pipeline._resolve reg fuel) p reg.reverse true f with
    | .error e => .error e
    | .ok f =>
      let f := prime f p.name
      match Pipeline._resolve_triggers (Pipeline._resolve reg fuel) p reg.reverse false f with
      | .error e => .error e
      | .ok f => .ok (markReplaces f p.replaces)

/-- The first loop of Pipeline.resolve (core.py lines 287-289): for every
pipe, if self._unprimed(pipe) and pipe.state["included"], recursively
resolve it. -/
def Pipeline.resolveLoop (resolveF : PipeMeta → Flags → Except PyErr Flags) :
    List PipeMeta → Flags → Except PyErr Flags
  | [], f => .ok f
  | p :: rest, f =>
    match Pipeline._unprimed (f p.name) with
    | .error e => .error e
    | .ok b =>
      if b && (f p.name).included then
        match resolveF p f with
        | .error e => .error e
        | .ok f => Pipeline.resolveLoop resolveF rest f
      else Pipeline.resolveLoop resolveF rest f

/-- The second loop of Pipeline.resolve (core.py lines 290-292): the call
list collects, in registration order, the names of the pipes that are
(primed or triggered) and not replaced. -/
def Pipeline.call (reg : List PipeMeta) (f : Flags) : List String :=
  (reg.filter (fun p =>
    ((f p.name).primed || (f p.name).triggered) && !(f p.name).replaced)).map
    (fun p => p.name)

/-- Pipeline.resolve (core.py lines 282-292), returning the final flag
assignment.  (The source also stamps the pipeline-level "started" state and
resets self.levels; neither affects the pipes or the call list.) -/
def Pipeline.resolve (reg : List PipeMeta) (fuel : Nat) (f : Flags) :
    Except PyErr Flags :=
  Pipeline.resolveLoop (Pipeline._resolve reg fuel) reg f

/-- Pipeline.resolve followed by reading self.call. -/
def Pipeline.resolveResult (reg : List PipeMeta) (fuel : Nat) (f : Flags) :
    Except PyErr (List String) :=
  match Pipeline.resolve reg fuel f with
  | .error e => .error e
  | .ok f => .ok (Pipeline.call reg f)

/-- The guard at the top of Pipeline.do (core.py lines 357-358):
if not self.call: self.parser.error("No stages were set to run!").  The
rest of do() executes the call list and is modelled separately by
Pipe.run. -/
def Pipeline.do_empty_check (call : List String) : Except PyErr Unit :=
  if call.isEmpty then .error (.usageError "No stages were set to run!")
  else .ok ()

/-!  Pipe.run (pipe.py lines 45-65). -/

/-- A Python exception value raised inside Pipe.run.  isException records
whether its class derives from Exception; SystemExit and KeyboardInterrupt
derive only from BaseException, so for them isException is false and the
bare "except Exception:" at pipe.py line 53 does not catch them. -/
structure Exc where
  id : Nat
  isException : Bool
deriving DecidableEq, Repr

/-- The TypeError raised by len(None) at pipe.py line 98, when the
description property of a pipe with no explicit description reads the
None __doc__ of a docstring-less action.  TypeError derives Exception. -/
def descTypeError : Exc := { id := 2, isException := true }

/-- What the pipe action self.do() does when invoked. -/
inductive ActionRes where
  | ok
  | raised (e : Exc)
deriving DecidableEq, Repr

/-- Observable effects of one Pipe.run call: the exception passed to the
handler self.handle (if any), the exception propagated to the caller (if
any), and whether the action body was invoked. -/
structure RunEff where
  handled : Option Exc := none
  propagated : Option Exc := none
  actionInvoked : Bool := false
deriving DecidableEq, Repr

/-- The per-pipe data Pipe.run consults: accepts models the isinstance
test of "except self.exceptions as e:" against the declared exceptions
tuple; optionalFlag is the stored optional keyword (which, in the source,
run never reads); desc is self._desc (none models Python None);
actionDescAttr is the description attribute of the action if present;
actionDoc is the __doc__ of the action, None for a docstring-less
function. -/
structure RunPipe where
  accepts : Exc → Bool
  optionalFlag : Bool := false
  desc : Option String := none
  actionDescAttr : Option String := none
  actionDoc : Option String := none
  name : String := ""

/-- The description property (pipe.py lines 93-105), whose value run logs
from inside its try block (pipe.py line 50):
if _desc is None and the action carries a description attribute, that
attribute; elif _desc is None, evaluate len(getattr(do, "__doc__", ""))
— a docstring-less function has __doc__ = None, so len raises TypeError
(line 98) — and return the docstring when that length is nonzero;
elif _desc is falsy (None with an empty docstring, or an empty string),
the generated "Running {name}"; else _desc itself (the unicode coercion
of a non-unicode value is assumed lossless). -/
def Pipe.description (p : RunPipe) : Except Exc String :=
  match p.desc with
  | none =>
    match p.actionDescAttr with
    | some s => .ok s
    | none =>
      match p.actionDoc with
      | none => .error descTypeError
      | some doc => .ok (if doc.length = 0 then "Running " ++ p.name else doc)
  | some d => .ok (if d.length = 0 then "Running " ++ p.name else d)

/-- Pipe.run (pipe.py lines 45-65), denotationally.  Control flow of the
source:  try: set started, log the start, log unicode(self.description)
— the description property is the Pipe's own code and can raise (see
Pipe.description); only then, if not dry, invoke the action;
except Exception: set excepted, re-raise inside
"try: raise / except self.exceptions as e: self.handle(e)";
else: set completed;  finally: set finished.
A description failure is therefore caught by the same machinery as an
action failure, before the dry check, with the action never invoked.
An exception whose class does not derive Exception skips the except block
entirely (no excepted mark, no handler) but still runs the finally block
and propagates.  The handler and the loggers themselves are assumed to
return normally. -/
def Pipe.run (p : RunPipe) (dry : Bool) (act : ActionRes) (s : PipeState) :
    PipeState × RunEff :=
  let s := { s with started := true }
  match Pipe.description p with
  | .error e =>
    if e.isException then
      let s := { s with excepted := true }
      if p.accepts e then
        ({ s with finished := true },
          { handled := some e, propagated := none, actionInvoked := false })
      else
        ({ s with finished := true },
          { handled := none, propagated := some e, actionInvoked := false })
    else
      ({ s with finished := true },
        { handled := none, propagated := some e, actionInvoked := false })
  | .ok _ =>
    if dry then
      ({ s with completed := true, finished := true },
        { handled := none, propagated := none, actionInvoked := false })
    else
      match act with
      | .ok =>
        ({ s with completed := true, finished := true },
          { handled := none, propagated := none, actionInvoked := true })
      | .raised e =>
        if e.isException then
          let s := { s with excepted := true }
          if p.accepts e then
            ({ s with finished := true },
              { handled := some e, propagated := none, actionInvoked := true })
          else
            ({ s with finished := true },
              { handled := none, propagated := some e, actionInvoked := true })
        else
          ({ s with finished := true },
            { handled := none, propagated := some e, actionInvoked := true })

/-- The pipe state at the time do()/execute() first runs a pipe that was
primed with the intended excluded key present: initialized, included or
primed flags may vary, but started/excepted/completed/finished are all
still False.  Used as the concrete pre-run state of the run theorems. -/
def s0 : PipeState :=
  { initialized := true, excluded := some false }

/-!  Typedkwargs._parse_keyword_args (src/pyshell/core.py lines 24-46)
applied to the list-typed keywords of Pipe (dependencies, triggers,
replaces). -/

/-- An element of a Python collection value, as far as the keyword
validation can observe it. -/
inductive PyAtom where
  | pstr (s : String)
  | pint (n : Int)
deriving DecidableEq, Repr

/-- A Python value passed for a list-typed keyword. -/
inductive PyVal where
  | pnone
  | patom (a : PyAtom)
  | plist (xs : List PyAtom)
  | ptuple (xs : List PyAtom)
deriving DecidableEq, Repr

/-- The coercion list(value): shallow-copies a list, converts a tuple to a
list, splits a string into one-character strings, and raises TypeError on
a non-iterable (int, None). -/
def coerceList : PyVal → Except PyErr (List PyAtom)
  | .plist xs => .ok xs
  | .ptuple xs => .ok xs
  | .patom (.pstr s) => .ok (s.data.map (fun c => .pstr (String.singleton c)))
  | .patom (.pint _) => .error (.typeError "int object is not iterable")
  | .pnone => .error (.typeError "NoneType object is not iterable")

/-- The ValueError message of core.py line 38 (the type names substituted
by the source format string are elided). -/
def invalidTypeMsg (key : String) : String := "Invalid type for " ++ key

/-- The body of the keyword loop of Typedkwargs._parse_keyword_args
(core.py lines 26-44) for one list-typed keyword:
value selection (an explicit keyword argument that is not None wins, then
the action attribute lookup, then the default list());
then "try: value = list(value) except Exception: pass";
then "if not isinstance(value, list): raise ValueError(...)".
Note the TypeError of a failed coercion is swallowed and the check then
raises ValueError, and that an iterable non-list value is silently
coerced. -/
def parseListKeyword (key : String) (kwarg lookup : Option PyVal) :
    Except PyErr (List PyAtom) :=
  let value : PyVal :=
    match kwarg with
    | some v => if v = .pnone then (lookup.getD (.plist [])) else v
    | none => lookup.getD (.plist [])
  let value : PyVal :=
    match coerceList value with
    | .ok xs => .plist xs
    | .error _ => value
  match value with
  | .plist xs => .ok xs
  | _ => .error (.valueError (invalidTypeMsg key))

/-- A stored pipe as register_pipe records it (name plus the validated
keyword lists; the remaining keywords do not interact with the claims). -/
structure RegPipe where
  name : String
  dependencies : List PyAtom := []
  triggers : List PyAtom := []
  replaces : List PyAtom := []
deriving DecidableEq, Repr

/-- Pipe.__init__ (pipe.py lines 33-43) restricted to the list-typed
keywords: _parse_keyword_args processes each keyword against the explicit
kwargs and the action attribute lookup vars(self.do).  (The Python dict
iteration order over the keywords is unspecified; the three keywords are
processed here in a fixed order, which is observationally equivalent
except for which of several simultaneously invalid keywords is reported
first.) -/
def Pipe.init (name : String) (deps trigs reps : Option PyVal)
    (lookupDeps lookupTrigs lookupReps : Option PyVal) :
    Except PyErr RegPipe :=
  match parseListKeyword "dependencies" deps lookupDeps with
  | .error e => .error e
  | .ok d =>
    match parseListKeyword "triggers" trigs lookupTrigs with
    | .error e => .error e
    | .ok t =>
      match parseListKeyword "replaces" reps lookupReps with
      | .error e => .error e
      | .ok r => .ok { name := name, dependencies := d, triggers := t, replaces := r }

/-- Pipeline.register_pipe (core.py lines 144-180), restricted to its
resolution-relevant effects: refuse registration once the pipeline has
started, construct the Pipe (validating the keyword lists), refuse a
duplicate name (the source raise at line 174 references the unbound local
name and so actually raises NameError), then store the pipe, preserving
registration order.  The argparse and "all"-macro side effects are CLI
collaborator concerns. -/
def Pipeline.register_pipe (pipes : List RegPipe) (started : Bool)
    (name : String) (deps trigs reps : Option PyVal) :
    Except PyErr (List RegPipe) :=
  if started then
    .error (.stateError
      "Cannot add a new pipe to the pipeline, the simulation has already started!")
  else
    match Pipe.init name deps trigs reps none none none with
    | .error e => .error e
    | .ok p =>
      if pipes.any (fun q => q.name = name) then .error (.nameError "name")
      else .ok (pipes ++ [p])

/-!  Concrete pipelines used by the scenario claims. -/

/-- The four-pipe scenario of the spec (also examples/silly_pipeline.py):
stepA with no dependencies, stepB depending on stepA, stepC depending on
stepA and stepB and triggering stepD, stepD plain, registered in that
order. -/
def regC1 : List PipeMeta :=
  [ { name := "stepA" },
    { name := "stepB", dependencies := ["stepA"] },
    { name := "stepC", dependencies := ["stepA", "stepB"], triggers := ["stepD"] },
    { name := "stepD" } ]

/-- stepA registered before its dependent stepB. -/
def regFwd : List PipeMeta :=
  [ { name := "stepA" }, { name := "stepB", dependencies := ["stepA"] } ]

/-- The same two pipes registered in the reverse order. -/
def regRev : List PipeMeta :=
  [ { name := "stepB", dependencies := ["stepA"] }, { name := "stepA" } ]

/-- stepE and a replacement pipe stepF with replaces = [stepE]. -/
def regEF : List PipeMeta :=
  [ { name := "stepE" }, { name := "stepF", replaces := ["stepE"] } ]

/-- A pipe declaring every exception acceptable, with an explicit
description (so its description property evaluates normally). -/
def pAll : RunPipe := { accepts := fun _ => true, desc := some "d" }

/-- A pipe declaring no exception acceptable, marked optional, with an
explicit description. -/
def pOptNarrow : RunPipe :=
  { accepts := fun _ => false, optionalFlag := true, desc := some "d" }

/-- A pipe registered with no description whose action is a
docstring-less function and declares no acceptable exceptions: its
description property raises TypeError at pipe.py line 98. -/
def pNoDesc : RunPipe := { accepts := fun _ => false }

/-- An exception whose class does not derive Exception (a SystemExit or
KeyboardInterrupt). -/
def eBase : Exc := { id := 0, isException := false }

/-- An ordinary Exception-derived exception. -/
def eExc : Exc := { id := 1, isException := true }

/-!  Predicates describing how resolution evolves the flags.  Resolution
only ever sets the primed, triggered and replaced flags (and the parent
attribute); it never clears a flag and never touches included or the
"excluded" key. -/

/-- One pipe state evolves into another during resolution: included and
the "excluded" key are unchanged, and the three resolver-owned flags only
ever go from False to True. -/
def FlagLe (s t : PipeState) : Prop :=
  t.included = s.included ∧ t.excluded = s.excluded ∧
  (s.primed = true → t.primed = true) ∧
  (s.triggered = true → t.triggered = true) ∧
  (s.replaced = true → t.replaced = true)

/-- Pointwise flag evolution of a whole assignment. -/
def MLe (f g : Flags) : Prop := ∀ n, FlagLe (f n) (g n)

/-- The replaces list of the registered pipe named n (the metadata the
resolution reads when it resolves pipe n). -/
def metaReplaces (reg : List PipeMeta) (n : String) : List String :=
  match reg.find? (fun m => m.name = n) with
  | some m => m.replaces
  | none => []

/-- Every pipe named in the replaces list of the pipe named n is marked
replaced in g. -/
def Marked (reg : List PipeMeta) (g : Flags) (n : String) : Prop :=
  ∀ r ∈ metaReplaces reg n, (g r).replaced = true

/-- Postcondition of a resolution step: every pipe that became primed
during the step has had its replaces list fully marked by the end of the
step. -/
def PGood (reg : List PipeMeta) (f g : Flags) : Prop :=
  ∀ n, (g n).primed = true → (f n).primed = true ∨ Marked reg g n

/-- Two successive resolutions of the same pipeline: resolve with fuel,
and on success resolve the resulting state again with fuel2, reading the
final call list. -/
def resolveTwice (reg : List PipeMeta) (fuel fuel2 : Nat) (f : Flags) :
    Except PyErr (List String) :=
  match Pipeline.resolve reg fuel f with
  | .error e => .error e
  | .ok g => Pipeline.resolveResult reg fuel2 g

/-- The primed flag of pipe n after a successful resolve. -/
def primedAfter (reg : List PipeMeta) (fuel : Nat) (f : Flags) (n : String) :
    Option Bool :=
  match Pipeline.resolve reg fuel f with
  | .error _ => none
  | .ok g => some (g n).primed

/-- The replaced flag of pipe n after a successful resolve. -/
def replacedAfter (reg : List PipeMeta) (fuel : Nat) (f : Flags) (n : String) :
    Option Bool :=
  match Pipeline.resolve reg fuel f with
  | .error _ => none
  | .ok g => some (g n).replaced

/-- Whether pipe n is in the call list after a successful resolve. -/
def inCallAfter (reg : List PipeMeta) (fuel : Nat) (f : Flags) (n : String) :
    Option Bool :=
  match Pipeline.resolve reg fuel f with
  | .error _ => none
  | .ok g => some (decide (n ∈ Pipeline.call reg g))

/-!  Shared lemmas about the resolution loop. -/

theorem FlagLe_refl (s : PipeState) : FlagLe s s :=
  ⟨rfl, rfl, id, id, id⟩

theorem FlagLe_trans {s t u : PipeState} (h1 : FlagLe s t) (h2 : FlagLe t u) :
    FlagLe s u :=
  ⟨h2.1.trans h1.1, h2.2.1.trans h1.2.1,
    fun h => h2.2.2.1 (h1.2.2.1 h),
    fun h => h2.2.2.2.1 (h1.2.2.2.1 h),
    fun h => h2.2.2.2.2 (h1.2.2.2.2 h)⟩

theorem MLe_refl (f : Flags) : MLe f f := fun _ => FlagLe_refl _

theorem MLe_trans {f g h : Flags} (h1 : MLe f g) (h2 : MLe g h) : MLe f h :=
  fun n => FlagLe_trans (h1 n) (h2 n)

theorem MLe_prime (f : Flags) (n : String) : MLe f (prime f n) := by
  intro m
  by_cases hm : m = n
  · subst hm
    simp only [prime, setF, if_pos rfl]
    exact ⟨rfl, rfl, fun _ => rfl, id, id⟩
  · simp only [prime, setF, if_neg hm]
    exact FlagLe_refl _

theorem MLe_markTriggered (f : Flags) (n : String) : MLe f (markTriggered f n) := by
  intro m
  by_cases hm : m = n
  · subst hm
    simp only [markTriggered, setF, if_pos rfl]
    exact ⟨rfl, rfl, id, fun _ => rfl, id⟩
  · simp only [markTriggered, setF, if_neg hm]
    exact FlagLe_refl _

theorem MLe_setParent (f : Flags) (n parent : String) : MLe f (setParent f n parent) := by
  intro m
  by_cases hm : m = n
  · subst hm
    simp only [setParent, setF, if_pos rfl]
    exact ⟨rfl, rfl, id, id, id⟩
  · simp only [setParent, setF, if_neg hm]
    exact FlagLe_refl _

theorem MLe_markReplaces (f : Flags) (rs : List String) : MLe f (markReplaces f rs) := by
  intro m
  by_cases hm : m ∈ rs
  · simp only [markReplaces, if_pos hm]
    exact ⟨rfl, rfl, id, id, fun _ => rfl⟩
  · simp only [markReplaces, if_neg hm]
    exact FlagLe_refl _

/-- _resolve_dependents only ever evolves the flags upward, provided the
recursive resolver does. -/
theorem _resolve_dependents_mono
    (resolveF : PipeMeta → Flags → Except PyErr Flags) (parent : PipeMeta)
    (hF : ∀ q f g, resolveF q f = .ok g → MLe f g) :
    ∀ (scan : List PipeMeta) (oe : Bool) (f g : Flags),
      Pipeline._resolve_dependents resolveF parent scan oe f = .ok g → MLe f g := by
  intro scan
  induction scan with
  | nil =>
    intro oe f g h
    simp only [Pipeline._resolve_dependents] at h
    injection h with h
    subst h
    exact MLe_refl _
  | cons q rest ih =>
    intro oe f g h
    simp only [Pipeline._resolve_dependents] at h
    revert h
    generalize (if q.name = parent.name then false else oe) = oe2
    intro h
    split at h
    · split at h
      · exact absurd h (by simp)
      · split at h
        · split at h
          · exact absurd h (by simp)
          · split at h
            · exact absurd h (by simp)
            · next f1 heq2 =>
              exact MLe_trans (MLe_trans (MLe_setParent f q.name parent.name)
                (hF _ _ _ heq2)) (ih _ _ _ h)
        · exact ih _ _ _ h
    · exact ih _ _ _ h

/-- _resolve_triggers only ever evolves the flags upward, provided the
recursive resolver does. -/
theorem _resolve_triggers_mono
    (resolveF : PipeMeta → Flags → Except PyErr Flags) (parent : PipeMeta)
    (hF : ∀ q f g, resolveF q f = .ok g → MLe f g) :
    ∀ (scan : List PipeMeta) (oe : Bool) (f g : Flags),
      Pipeline._resolve_triggers resolveF parent scan oe f = .ok g → MLe f g := by
  intro scan
  induction scan with
  | nil =>
    intro oe f g h
    simp only [Pipeline._resolve_triggers] at h
    injection h with h
    subst h
    exact MLe_refl _
  | cons q rest ih =>
    intro oe f g h
    simp only [Pipeline._resolve_triggers] at h
    revert h
    generalize (if q.name = parent.name then true else oe) = oe2
    intro h
    split at h
    · split at h
      · exact absurd h (by simp)
      · split at h
        · split at h
          · exact absurd h (by simp)
          · split at h
            · exact absurd h (by simp)
            · next f1 heq2 =>
              exact MLe_trans (MLe_trans (MLe_trans
                (MLe_setParent f q.name parent.name)
                (MLe_markTriggered _ q.name))
                (hF _ _ _ heq2)) (ih _ _ _ h)
        · exact ih _ _ _ h
    · exact ih _ _ _ h

/-- Pipeline._resolve only ever evolves the flags upward. -/
theorem _resolve_mono (reg : List PipeMeta) :
    ∀ (fuel : Nat) (p : PipeMeta) (f g : Flags),
      Pipeline._resolve reg fuel p f = .ok g → MLe f g := by
  intro fuel
  induction fuel with
  | zero => intro p f g h; exact absurd h (by simp [Pipeline._resolve])
  | succ fuel ih =>
    intro p f g h
    simp only [Pipeline._resolve] at h
    split at h
    · exact absurd h (by simp)
    · next f1 heq1 =>
      split at h
      · exact absurd h (by simp)
      · next f3 heq3 =>
        injection h with h
        subst h
        exact MLe_trans (MLe_trans (MLe_trans
          (_resolve_dependents_mono _ p ih _ _ _ _ heq1)
          (MLe_prime f1 p.name))
          (_resolve_triggers_mono _ p ih _ _ _ _ heq3))
          (MLe_markReplaces _ p.replaces)

/-- The first loop of resolve only ever evolves the flags upward. -/
theorem resolveLoop_mono
    (resolveF : PipeMeta → Flags → Except PyErr Flags)
    (hF : ∀ q f g, resolveF q f = .ok g → MLe f g) :
    ∀ (scan : List PipeMeta) (f g : Flags),
      Pipeline.resolveLoop resolveF scan f = .ok g → MLe f g := by
  intro scan
  induction scan with
  | nil =>
    intro f g h
    simp only [Pipeline.resolveLoop] at h
    injection h with h
    subst h
    exact MLe_refl _
  | cons q rest ih =>
    intro f g h
    simp only [Pipeline.resolveLoop] at h
    split at h
    · exact absurd h (by simp)
    · split at h
      · split at h
        · exact absurd h (by simp)
        · next f1 heq1 => exact MLe_trans (hF _ _ _ heq1) (ih _ _ h)
      · exact ih _ _ h

/-- A completed Pipeline._resolve on pipe p leaves p primed. -/
theorem _resolve_primes (reg : List PipeMeta) :
    ∀ (fuel : Nat) (p : PipeMeta) (f g : Flags),
      Pipeline._resolve reg fuel p f = .ok g → (g p.name).primed = true := by
  intro fuel
  cases fuel with
  | zero => intro p f g h; exact absurd h (by simp [Pipeline._resolve])
  | succ fuel =>
    intro p f g h
    simp only [Pipeline._resolve] at h
    split at h
    · exact absurd h (by simp)
    · next f1 heq1 =>
      split at h
      · exact absurd h (by simp)
      · next f3 heq3 =>
        injection h with h
        subst h
        have h2 : ((prime f1 p.name) p.name).primed = true := by
          simp [prime, setF]
        have h3 := (_resolve_triggers_mono _ p (_resolve_mono reg fuel) _ _ _ _ heq3)
          p.name
        have h4 := (MLe_markReplaces f3 p.replaces) p.name
        exact h4.2.2.1 (h3.2.2.1 h2)

theorem Marked_mono {reg : List PipeMeta} {g h : Flags} (hm : MLe g h) {n : String}
    (hg : Marked reg g n) : Marked reg h n :=
  fun r hr => ((hm r).2.2.2.2) (hg r hr)

theorem PGood_trans {reg : List PipeMeta} {f g h : Flags}
    (h1 : PGood reg f g) (h2 : PGood reg g h) (hm : MLe g h) : PGood reg f h := by
  intro n hp
  rcases h2 n hp with hp2 | hmk
  · rcases h1 n hp2 with hp1 | hmk
    · exact Or.inl hp1
    · exact Or.inr (Marked_mono hm hmk)
  · exact Or.inr hmk

theorem PGood_of_primed_eq {reg : List PipeMeta} {f g : Flags}
    (h : ∀ n, (g n).primed = (f n).primed) : PGood reg f g :=
  fun n hp => Or.inl ((h n) ▸ hp)

theorem setParent_primed (f : Flags) (n parent m : String) :
    ((setParent f n parent) m).primed = (f m).primed := by
  by_cases hm : m = n
  · subst hm; simp [setParent, setF]
  · simp [setParent, setF, hm]

theorem markTriggered_primed (f : Flags) (n m : String) :
    ((markTriggered f n) m).primed = (f m).primed := by
  by_cases hm : m = n
  · subst hm; simp [markTriggered, setF]
  · simp [markTriggered, setF, hm]

theorem markReplaces_primed (f : Flags) (rs : List String) (m : String) :
    ((markReplaces f rs) m).primed = (f m).primed := by
  by_cases hm : m ∈ rs
  · simp [markReplaces, hm]
  · simp [markReplaces, hm]

theorem markReplaces_replaced (f : Flags) (rs : List String) (r : String)
    (hr : r ∈ rs) : ((markReplaces f rs) r).replaced = true := by
  simp [markReplaces, hr]

theorem prime_primed (f : Flags) (n m : String) :
    ((prime f n) m).primed = if m = n then true else (f m).primed := by
  by_cases hm : m = n
  · subst hm; simp [prime, setF]
  · simp [prime, setF, hm]

/-- In a pipeline without duplicate names, looking a registered pipe up by
its name finds exactly that pipe. -/
theorem find?_of_nodup (reg : List PipeMeta) (q : PipeMeta)
    (hN : (reg.map PipeMeta.name).Nodup) (hq : q ∈ reg) :
    reg.find? (fun m => m.name = q.name) = some q := by
  induction reg with
  | nil => exact absurd hq (List.not_mem_nil q)
  | cons a rest ih =>
    simp only [List.map_cons, List.nodup_cons] at hN
    rcases List.mem_cons.mp hq with rfl | hq2
    · rw [List.find?_cons_of_pos]
      simp
    · rw [List.find?_cons_of_neg, ih hN.2 hq2]
      have hne : ¬(a.name = q.name) := by
        intro he
        exact hN.1 (he ▸ List.mem_map.mpr ⟨q, hq2, rfl⟩)
      simp [hne]

theorem metaReplaces_eq (reg : List PipeMeta) (q : PipeMeta)
    (hN : (reg.map PipeMeta.name).Nodup) (hq : q ∈ reg) :
    metaReplaces reg q.name = q.replaces := by
  simp [metaReplaces, find?_of_nodup reg q hN hq]

/-- _resolve_dependents establishes PGood, provided the recursive resolver
does for pipes of the registry. -/
theorem _resolve_dependents_pgood (reg : List PipeMeta)
    (resolveF : PipeMeta → Flags → Except PyErr Flags) (parent : PipeMeta)
    (hFm : ∀ q f g, resolveF q f = .ok g → MLe f g)
    (hFp : ∀ q f g, q ∈ reg → resolveF q f = .ok g → PGood reg f g) :
    ∀ (scan : List PipeMeta), (∀ x ∈ scan, x ∈ reg) →
      ∀ (oe : Bool) (f g : Flags),
      Pipeline._resolve_dependents resolveF parent scan oe f = .ok g →
        PGood reg f g := by
  intro scan
  induction scan with
  | nil =>
    intro hsub oe f g h
    simp only [Pipeline._resolve_dependents] at h
    injection h with h
    subst h
    exact fun n hp => Or.inl hp
  | cons q rest ih =>
    intro hsub oe f g h
    have hsub2 : ∀ x ∈ rest, x ∈ reg := fun x hx => hsub x (List.mem_cons_of_mem q hx)
    have hqreg : q ∈ reg := hsub q (List.mem_cons_self q rest)
    simp only [Pipeline._resolve_dependents] at h
    revert h
    generalize (if q.name = parent.name then false else oe) = oe2
    intro h
    split at h
    · split at h
      · exact absurd h (by simp)
      · split at h
        · split at h
          · exact absurd h (by simp)
          · split at h
            · exact absurd h (by simp)
            · next f1 heq2 =>
              have P1 : PGood reg f (setParent f q.name parent.name) :=
                PGood_of_primed_eq (fun n => setParent_primed f q.name parent.name n)
              have P2 := hFp q _ _ hqreg heq2
              have P3 := ih hsub2 _ _ _ h
              have M2 := hFm q _ _ heq2
              have M3 := _resolve_dependents_mono resolveF parent hFm rest _ _ _ h
              exact PGood_trans (PGood_trans P1 P2 M2) P3 M3
        · exact ih hsub2 _ _ _ h
    · exact ih hsub2 _ _ _ h

/-- _resolve_triggers establishes PGood, provided the recursive resolver
does for pipes of the registry. -/
theorem _resolve_triggers_pgood (reg : List PipeMeta)
    (resolveF : PipeMeta → Flags → Except PyErr Flags) (parent : PipeMeta)
    (hFm : ∀ q f g, resolveF q f = .ok g → MLe f g)
    (hFp : ∀ q f g, q ∈ reg → resolveF q f = .ok g → PGood reg f g) :
    ∀ (scan : List PipeMeta), (∀ x ∈ scan, x ∈ reg) →
      ∀ (oe : Bool) (f g : Flags),
      Pipeline._resolve_triggers resolveF parent scan oe f = .ok g →
        PGood reg f g := by
  intro scan
  induction scan with
  | nil =>
    intro hsub oe f g h
    simp only [Pipeline._resolve_triggers] at h
    injection h with h
    subst h
    exact fun n hp => Or.inl hp
  | cons q rest ih =>
    intro hsub oe f g h
    have hsub2 : ∀ x ∈ rest, x ∈ reg := fun x hx => hsub x (List.mem_cons_of_mem q hx)
    have hqreg : q ∈ reg := hsub q (List.mem_cons_self q rest)
    simp only [Pipeline._resolve_triggers] at h
    revert h
    generalize (if q.name = parent.name then true else oe) = oe2
    intro h
    split at h
    · split at h
      · exact absurd h (by simp)
      · split at h
        · split at h
          · exact absurd h (by simp)
          · split at h
            · exact absurd h (by simp)
            · next f1 heq2 =>
              have P1 : PGood reg f
                  (markTriggered (setParent f q.name parent.name) q.name) :=
                PGood_of_primed_eq (fun n => by
                  rw [markTriggered_primed, setParent_primed])
              have P2 := hFp q _ _ hqreg heq2
              have P3 := ih hsub2 _ _ _ h
              have M2 := hFm q _ _ heq2
              have M3 := _resolve_triggers_mono resolveF parent hFm rest _ _ _ h
              exact PGood_trans (PGood_trans P1 P2 M2) P3 M3
        · exact ih hsub2 _ _ _ h
    · exact ih hsub2 _ _ _ h

/-- Pipeline._resolve establishes PGood: every pipe that becomes primed
during a completed _resolve has its whole replaces list marked replaced by
the time _resolve returns. -/
theorem _resolve_pgood (reg : List PipeMeta)
    (hN : (reg.map PipeMeta.name).Nodup) :
    ∀ (fuel : Nat) (p : PipeMeta) (f g : Flags), p ∈ reg →
      Pipeline._resolve reg fuel p f = .ok g → PGood reg f g := by
  intro fuel
  induction fuel with
  | zero => intro p f g hp h; exact absurd h (by simp [Pipeline._resolve])
  | succ fuel ih =>
    intro p f g hp h
    simp only [Pipeline._resolve] at h
    split at h
    · exact absurd h (by simp)
    · next f1 heq1 =>
      split at h
      · exact absurd h (by simp)
      · next f3 heq3 =>
        injection h with h
        subst h
        have hrev : ∀ x ∈ reg.reverse, x ∈ reg := fun x hx => List.mem_reverse.mp hx
        have hFm := _resolve_mono reg fuel
        have hFp : ∀ q f g, q ∈ reg → Pipeline._resolve reg fuel q f = .ok g →
            PGood reg f g := fun q f g hq hh => ih q f g hq hh
        have Pd := _resolve_dependents_pgood reg _ p hFm hFp reg.reverse hrev _ _ _ heq1
        have Pt := _resolve_triggers_pgood reg _ p hFm hFp reg.reverse hrev _ _ _ heq3
        have Mt := _resolve_triggers_mono _ p hFm reg.reverse _ _ _ heq3
        intro n hpn
        rw [markReplaces_primed] at hpn
        rcases Pt n hpn with hp2 | hmk
        · rw [prime_primed] at hp2
          by_cases hnp : n = p.name
          · subst hnp
            refine Or.inr (fun r hr => ?_)
            rw [metaReplaces_eq reg p hN hp] at hr
            exact markReplaces_replaced f3 p.replaces r hr
          · rw [if_neg hnp] at hp2
            rcases Pd n hp2 with hpf | hmk1
            · exact Or.inl hpf
            · refine Or.inr (Marked_mono ?_ hmk1)
              exact MLe_trans (MLe_trans (MLe_prime f1 p.name) Mt)
                (MLe_markReplaces f3 p.replaces)
        · exact Or.inr (Marked_mono (MLe_markReplaces f3 p.replaces) hmk)

/-- The first loop of resolve establishes PGood, provided the resolver
does for pipes of the registry. -/
theorem resolveLoop_pgood (reg : List PipeMeta)
    (resolveF : PipeMeta → Flags → Except PyErr Flags)
    (hFm : ∀ q f g, resolveF q f = .ok g → MLe f g)
    (hFp : ∀ q f g, q ∈ reg → resolveF q f = .ok g → PGood reg f g) :
    ∀ (scan : List PipeMeta), (∀ x ∈ scan, x ∈ reg) → ∀ (f g : Flags),
      Pipeline.resolveLoop resolveF scan f = .ok g → PGood reg f g := by
  intro scan
  induction scan with
  | nil =>
    intro hsub f g h
    simp only [Pipeline.resolveLoop] at h
    injection h with h
    subst h
    exact fun n hp => Or.inl hp
  | cons q rest ih =>
    intro hsub f g h
    have hsub2 : ∀ x ∈ rest, x ∈ reg := fun x hx => hsub x (List.mem_cons_of_mem q hx)
    have hqreg : q ∈ reg := hsub q (List.mem_cons_self q rest)
    simp only [Pipeline.resolveLoop] at h
    split at h
    · exact absurd h (by simp)
    · split at h
      · split at h
        · exact absurd h (by simp)
        · next f1 heq1 =>
          have P2 := hFp q _ _ hqreg heq1
          have P3 := ih hsub2 _ _ h
          have M3 := resolveLoop_mono resolveF hFm rest _ _ h
          exact PGood_trans P2 P3 M3
      · exact ih hsub2 _ _ h

/-- A replaced pipe never appears in the call list (the second loop of
resolve filters on not replaced). -/
theorem replaced_notin_call (reg : List PipeMeta) (g : Flags) (n : String)
    (h : (g n).replaced = true) : n ∉ Pipeline.call reg g := by
  intro hc
  simp only [Pipeline.call, List.mem_map] at hc
  obtain ⟨p, hpf, hpn⟩ := hc
  have hm := List.mem_filter.mp hpf
  have h2 := hm.2
  rw [hpn] at h2
  simp [h] at h2

/-- If every pipe of the scan is already primed, or carries an "excluded"
key that is True, or carries one that is False while the pipe is not
included, then the first loop of Pipeline.resolve touches nothing: it
returns the flag assignment unchanged and never invokes _resolve. -/
theorem resolveLoop_skip_all (resolveF : PipeMeta → Flags → Except PyErr Flags)
    (reg : List PipeMeta) (f : Flags)
    (h : ∀ p ∈ reg, (f p.name).primed = true ∨ (f p.name).excluded = some true ∨
      ((f p.name).excluded = some false ∧ (f p.name).included = false)) :
    Pipeline.resolveLoop resolveF reg f = .ok f := by
  induction reg with
  | nil => rfl
  | cons q rest ih =>
    have hq := h q (List.mem_cons_self q rest)
    have hrest : Pipeline.resolveLoop resolveF rest f = .ok f :=
      ih (fun p hp => h p (List.mem_cons_of_mem q hp))
    rcases hq with hq | hq | ⟨hq, hq'⟩
    · simp [Pipeline.resolveLoop, Pipeline._unprimed, hq, hrest]
    · simp [Pipeline.resolveLoop, Pipeline._unprimed, hq, hrest]
    · by_cases hpr : (f q.name).primed = true
      · simp [Pipeline.resolveLoop, Pipeline._unprimed, hpr, hrest]
      · simp only [Bool.not_eq_true] at hpr
        simp [Pipeline.resolveLoop, Pipeline._unprimed, hpr, hq, hq', hrest]

/-- If some pipe of the scan is unprimed and has no "excluded" key, the
first loop of Pipeline.resolve raises KeyError("excluded"): every pipe
before it in the scan either has the key (and, being excluded, is
skipped, leaving the flags untouched) or raises the same KeyError
first. -/
theorem resolveLoop_keyerror (resolveF : PipeMeta → Flags → Except PyErr Flags)
    (reg : List PipeMeta) (incl excl : List String)
    (h : ∃ p ∈ reg, p.name ∉ excl) :
    Pipeline.resolveLoop resolveF reg (initState incl excl) =
      .error (.keyError "excluded") := by
  induction reg with
  | nil => obtain ⟨p, hp, -⟩ := h; exact absurd hp (List.not_mem_nil p)
  | cons q rest ih =>
    by_cases hq : q.name ∈ excl
    · have hskip : Pipeline._unprimed (initState incl excl q.name) = .ok false := by
        simp [Pipeline._unprimed, initState, hq]
      obtain ⟨p, hp, hpe⟩ := h
      have hpr : p ∈ rest := by
        rcases List.mem_cons.mp hp with hpq | hpr
        · rw [hpq] at hpe; exact absurd hq hpe
        · exact hpr
      simp [Pipeline.resolveLoop, hskip, ih ⟨p, hpr, hpe⟩]
    · have hkey : Pipeline._unprimed (initState incl excl q.name) =
          .error (.keyError "excluded") := by
        simp [Pipeline._unprimed, initState, hq]
      simp [Pipeline.resolveLoop, hkey]

/-!  Claims C1, C2, C4, C9: resolution. -/

/-- C1 (code bug).  The scenario pipeline with include selection {stepC}:
as the source initializes pipe state (no "excluded" key), resolve() raises
KeyError("excluded") at its first unexcluded pipe instead of producing the
call list; with the evidently intended state (the "excluded" key present
and False), the same resolve() code produces exactly
[stepA, stepB, stepC, stepD]. -/
theorem C1_scenario :
    Pipeline.resolveResult regC1 10 (initState ["stepC"] []) =
      .error (.keyError "excluded") ∧
    Pipeline.resolveResult regC1 10 (initStateK ["stepC"] []) =
      .ok ["stepA", "stepB", "stepC", "stepD"] :=
  ⟨rfl, rfl⟩

/-- C2 (confirmed).  For every pipeline holding at least one registered
pipe that is not primed and never marked excluded, resolve() fails with a
key-lookup error: Pipe state is initialized without an "excluded" key and
_unprimed reads state["excluded"] for every not-yet-primed pipe it
visits. -/
theorem C2_resolve_keyerror (reg : List PipeMeta) (incl excl : List String)
    (fuel : Nat)
    (h : ∃ p ∈ reg, (initState incl excl p.name).primed = false ∧
      (initState incl excl p.name).excluded = none) :
    Pipeline.resolve reg fuel (initState incl excl) =
      .error (.keyError "excluded") := by
  apply resolveLoop_keyerror
  obtain ⟨p, hp, -, hpe⟩ := h
  refine ⟨p, hp, ?_⟩
  intro hc
  simp [initState, hc] at hpe

/-- Witness for C2: a pipeline whose only pipe (named like the built-in
"none" pipe) is not excluded. -/
theorem C2_resolve_keyerror_witness :
    Pipeline.resolve [{ name := "none" }] 5 (initState [] []) =
      .error (.keyError "excluded") :=
  C2_resolve_keyerror [{ name := "none" }] [] [] 5
    ⟨{ name := "none" }, by simp, rfl, rfl⟩

/-- C4 (code bug).  Registering stepA then stepB (stepB depending on
stepA) and selecting stepB: as the source initializes pipe state, resolve
raises KeyError("excluded") instead of succeeding; with the intended
"excluded" key present, the forward registration resolves to
[stepA, stepB] and the reversed registration fails with the
PipelineStateException naming both pipes. -/
theorem C4_order_violation :
    Pipeline.resolveResult regFwd 10 (initState ["stepB"] []) =
      .error (.keyError "excluded") ∧
    Pipeline.resolveResult regFwd 10 (initStateK ["stepB"] []) =
      .ok ["stepA", "stepB"] ∧
    Pipeline.resolveResult regRev 10 (initStateK ["stepB"] []) =
      .error (.stateError (dependMsg "stepB" "stepA")) :=
  ⟨rfl, rfl, rfl⟩

/-- C9 counterexample.  Resolving the scenario pipeline with an empty
include selection: with the intended pipe state, resolve() returns
normally with an empty call list and raises no usage error at all (the
"No stages were set to run!" message lives in Pipeline.do, line 358); as
the source actually initializes pipe state, resolve() raises
KeyError("excluded"), which is not the usage error either. -/
theorem C9_counterexample :
    Pipeline.resolveResult regC1 10 (initStateK [] []) = .ok [] ∧
    Pipeline.resolveResult regC1 10 (initState [] []) =
      .error (.keyError "excluded") :=
  ⟨rfl, rfl⟩

/-- C9 amended.  With an empty include selection (and the "excluded" key
present, so that resolution can run at all), resolve() returns an empty
call list without raising; the "No stages were set to run!" usage error is
raised by Pipeline.do when it finds the call list empty, i.e. at
execution time, not at resolution time. -/
theorem C9_empty_selection_amended (reg : List PipeMeta) (excl : List String)
    (fuel : Nat) :
    Pipeline.resolveResult reg fuel (initStateK [] excl) = .ok [] ∧
    Pipeline.do_empty_check [] =
      .error (.usageError "No stages were set to run!") := by
  constructor
  · have hloop : Pipeline.resolveLoop (Pipeline._resolve reg fuel) reg
        (initStateK [] excl) = .ok (initStateK [] excl) := by
      apply resolveLoop_skip_all
      intro p hp
      by_cases hx : p.name ∈ excl
      · exact Or.inr (Or.inl (by simp [initStateK, hx]))
      · exact Or.inr (Or.inr (by simp [initStateK, hx]))
    have hcall : Pipeline.call reg (initStateK [] excl) = [] := by
      simp only [Pipeline.call, List.map_eq_nil_iff, List.filter_eq_nil_iff]
      intro p hp
      simp [initStateK]
    simp [Pipeline.resolveResult, Pipeline.resolve, hloop, hcall]
  · rfl

/-!  Claims C3, C6, C7: Pipe.run. -/

/-- C3 counterexample.  A pipe whose declared exceptions accept
everything, whose action raises a BaseException-only exception
(SystemExit / KeyboardInterrupt): run propagates it although it is an
instance of the declared exceptions, and the excepted flag stays unset
although the action raised, refuting both biconditionals of the claim
(the bare "except Exception:" at pipe.py line 53 never catches it). -/
theorem C3_counterexample :
    (Pipe.run pAll false (.raised eBase) s0).2.propagated = some eBase ∧
    pAll.accepts eBase = true ∧
    (Pipe.run pAll false (.raised eBase) s0).1.excepted = false ∧
    (Pipe.run pAll false (.raised eBase) s0).1.finished = true :=
  ⟨rfl, rfl, rfl, rfl⟩

/-- C3 amended.  run(dry=False) always exits with started and finished
set.  Provided the in-try evaluation of the description succeeds (the
pipe has a description, or its action a description attribute or a
docstring): completed is set exactly when the action raised nothing;
excepted is set exactly when the action raised an Exception-derived
exception; the handler is invoked (and run returns normally) exactly when
the raised exception derives Exception and is an instance of the declared
exceptions; otherwise the exception propagates (for a BaseException-only
exception with excepted left unset).  When the description evaluation
itself raises (the TypeError of pipe.py line 98), the action is never
invoked and that exception goes through the same except machinery:
excepted set, completed clear, handled-and-normal-return exactly when the
declared exceptions accept it. -/
theorem C3_run_amended (p : RunPipe) (s : PipeState) (act : ActionRes)
    (hc : s.completed = false) (he : s.excepted = false) :
    (Pipe.run p false act s).1.finished = true ∧
    (Pipe.run p false act s).1.started = true ∧
    (∀ d, Pipe.description p = .ok d →
      ((Pipe.run p false act s).1.completed = true ↔ act = .ok) ∧
      (∀ e, act = .raised e →
        (Pipe.run p false act s).1.excepted = e.isException ∧
        ((Pipe.run p false act s).2.propagated = none ↔
          e.isException = true ∧ p.accepts e = true) ∧
        ((Pipe.run p false act s).2.handled = some e ↔
          e.isException = true ∧ p.accepts e = true) ∧
        ((Pipe.run p false act s).2.propagated = none ∨
          (Pipe.run p false act s).2.propagated = some e))) ∧
    (∀ e, Pipe.description p = .error e →
      (Pipe.run p false act s).2.actionInvoked = false ∧
      (Pipe.run p false act s).1.excepted = e.isException ∧
      (Pipe.run p false act s).1.completed = false ∧
      ((Pipe.run p false act s).2.propagated = none ↔
        e.isException = true ∧ p.accepts e = true)) := by
  rcases hdd : Pipe.description p with e0 | d0
  · refine ⟨?_, ?_, ?_, ?_⟩
    · by_cases hie : e0.isException = true <;> by_cases hacc : p.accepts e0 = true <;>
        simp [Pipe.run, hdd, hie, hacc]
    · by_cases hie : e0.isException = true <;> by_cases hacc : p.accepts e0 = true <;>
        simp [Pipe.run, hdd, hie, hacc]
    · intro d hd
      exact absurd hd (by simp)
    · intro e hei
      injection hei with hei
      subst hei
      by_cases hie : e0.isException = true <;> by_cases hacc : p.accepts e0 = true <;>
        simp [Pipe.run, hdd, hie, hacc, hc, he]
  · refine ⟨?_, ?_, ?_, ?_⟩
    · cases act with
      | ok => simp [Pipe.run, hdd]
      | raised e =>
        by_cases hie : e.isException = true <;> by_cases hacc : p.accepts e = true <;>
          simp [Pipe.run, hdd, hie, hacc]
    · cases act with
      | ok => simp [Pipe.run, hdd]
      | raised e =>
        by_cases hie : e.isException = true <;> by_cases hacc : p.accepts e = true <;>
          simp [Pipe.run, hdd, hie, hacc]
    · intro d hd
      cases act with
      | ok => simp [Pipe.run, hdd]
      | raised e =>
        by_cases hie : e.isException = true <;> by_cases hacc : p.accepts e = true <;>
          simp [Pipe.run, hdd, hie, hacc, hc, he]
    · intro e hei
      exact absurd hei (by simp)

/-- Witness for C3 amended: a successful action and a declared
Exception-derived failure of the accept-everything pipe (whose
description evaluates), and the never-invoked action of a pipe whose
description raises. -/
theorem C3_run_amended_witness :
    (Pipe.run pAll false .ok s0).1.finished = true ∧
    ((Pipe.run pAll false (.raised eExc) s0).2.handled = some eExc) ∧
    (Pipe.run pNoDesc false .ok s0).2.actionInvoked = false :=
  ⟨(C3_run_amended pAll s0 .ok rfl rfl).1,
    ((((C3_run_amended pAll s0 (.raised eExc) rfl rfl).2.2.1 "d" rfl).2
      eExc rfl).2.2.1).mpr ⟨rfl, rfl⟩,
    ((C3_run_amended pNoDesc s0 .ok rfl rfl).2.2.2 descTypeError rfl).1⟩

/-- C6 counterexample.  An optional pipe whose declared exceptions accept
nothing, and whose action raises an ordinary (Exception-derived) error not
among them: run propagates the exception to its caller; optionality does
not widen the caught set (Pipe.run never reads the optional keyword). -/
theorem C6_counterexample :
    (Pipe.run pOptNarrow false (.raised eExc) s0).2.propagated = some eExc ∧
    pOptNarrow.optionalFlag = true :=
  ⟨rfl, rfl⟩

/-- C6 amended.  optional=true has no effect on Pipe.run: the run
behaviour of an optional pipe is identical to that of a non-optional pipe
with the same declared exceptions (with or without a description); in
particular an optional pipe (here one whose description evaluates, so
that the action is actually reached) whose action raises an
Exception-derived error outside its declared exceptions propagates it
(with excepted and finished set and completed clear), rather than
catching everything. -/
theorem C6_optional_amended (acc : Exc → Bool) (dsc : String) (s : PipeState)
    (e : Exc) (hexc : e.isException = true) (hacc : acc e = false)
    (hsc : s.completed = false) :
    (∀ (dry : Bool) (act : ActionRes) (t : PipeState),
      Pipe.run { accepts := acc, optionalFlag := true } dry act t =
        Pipe.run { accepts := acc, optionalFlag := false } dry act t) ∧
    (∀ (dry : Bool) (act : ActionRes) (t : PipeState),
      Pipe.run { accepts := acc, optionalFlag := true, desc := some dsc } dry act t =
        Pipe.run { accepts := acc, optionalFlag := false, desc := some dsc } dry act t) ∧
    (Pipe.run { accepts := acc, optionalFlag := true, desc := some dsc }
      false (.raised e) s).2.propagated = some e ∧
    (Pipe.run { accepts := acc, optionalFlag := true, desc := some dsc }
      false (.raised e) s).1.excepted = true ∧
    (Pipe.run { accepts := acc, optionalFlag := true, desc := some dsc }
      false (.raised e) s).1.finished = true ∧
    (Pipe.run { accepts := acc, optionalFlag := true, desc := some dsc }
      false (.raised e) s).1.completed = false := by
  refine ⟨?_, ?_, ?_, ?_, ?_, ?_⟩
  · intro dry act t
    rfl
  · intro dry act t
    cases dry <;> cases act <;> rfl
  all_goals simp [Pipe.run, Pipe.description, hexc, hacc, hsc]

/-- Witness for C6 amended at the concrete optional pipe. -/
theorem C6_optional_amended_witness :
    (Pipe.run pOptNarrow false (.raised eExc) s0).1.excepted = true ∧
    (Pipe.run pOptNarrow false (.raised eExc) s0).1.completed = false :=
  ⟨(C6_optional_amended (fun _ => false) "d" s0 eExc rfl rfl rfl).2.2.2.1,
    (C6_optional_amended (fun _ => false) "d" s0 eExc rfl rfl rfl).2.2.2.2.2⟩

/-- C7 counterexample.  A pipe registered without a description whose
action has no docstring: run(dry=True) evaluates the description inside
its try block before the dry check (pipe.py line 50), the len(None) of
pipe.py line 98 raises TypeError, and the dry run exits with excepted set
and completed unset, propagating the TypeError (the default declared
exceptions tuple is empty) — the action is indeed never invoked, but the
run does not return normally and the state machine does not reach
completed. -/
theorem C7_counterexample :
    (Pipe.run pNoDesc true .ok s0).2.propagated = some descTypeError ∧
    (Pipe.run pNoDesc true .ok s0).1.excepted = true ∧
    (Pipe.run pNoDesc true .ok s0).1.completed = false ∧
    (Pipe.run pNoDesc true .ok s0).2.actionInvoked = false :=
  ⟨rfl, rfl, rfl, rfl⟩

/-- C7 amended.  run(dry=True) never invokes the action; provided the
description evaluation succeeds (the pipe has a description, or its
action a description attribute or a docstring), the dry run returns
normally (nothing handled, nothing propagated) with started, completed
and finished set and no other flag changed, exactly as a successful real
run; when the description evaluation raises, even the dry run (from a
state not already marked excepted) takes the exception path — excepted
set, completed unchanged, finished set — and behaves exactly as the real
run would, the action never invoked either way. -/
theorem C7_dry_run_amended (p : RunPipe) (act : ActionRes) (s : PipeState)
    (hse : s.excepted = false) :
    (Pipe.run p true act s).2.actionInvoked = false ∧
    (∀ d, Pipe.description p = .ok d →
      Pipe.run p true act s =
        ({ s with started := true, completed := true, finished := true },
          { handled := none, propagated := none, actionInvoked := false }) ∧
      (Pipe.run p true act s).1 = (Pipe.run p false .ok s).1) ∧
    (∀ e, Pipe.description p = .error e →
      (Pipe.run p true act s).1.excepted = e.isException ∧
      (Pipe.run p true act s).1.completed = s.completed ∧
      (Pipe.run p true act s).1.finished = true ∧
      Pipe.run p true act s = Pipe.run p false act s) := by
  rcases hdd : Pipe.description p with e0 | d0
  · refine ⟨?_, ?_, ?_⟩
    · by_cases hie : e0.isException = true <;> by_cases hacc : p.accepts e0 = true <;>
        simp [Pipe.run, hdd, hie, hacc]
    · intro d hd
      exact absurd hd (by simp)
    · intro e hei
      injection hei with hei
      subst hei
      by_cases hie : e0.isException = true <;> by_cases hacc : p.accepts e0 = true <;>
        simp [Pipe.run, hdd, hie, hacc, hse]
  · refine ⟨?_, ?_, ?_⟩
    · simp [Pipe.run, hdd]
    · intro d hd
      exact ⟨by simp [Pipe.run, hdd], by simp [Pipe.run, hdd]⟩
    · intro e hei
      exact absurd hei (by simp)

/-- Witness for C7 amended: a dry run of the described pipe returns
normally with the full successful state, and a dry run of the
description-less pipe sets excepted. -/
theorem C7_dry_run_amended_witness :
    Pipe.run pAll true .ok s0 =
      ({ s0 with started := true, completed := true, finished := true },
        { handled := none, propagated := none, actionInvoked := false }) ∧
    (Pipe.run pNoDesc true .ok s0).1.excepted = true := by
  refine ⟨((C7_dry_run_amended pAll .ok s0 rfl).2.1 "d" rfl).1, ?_⟩
  have h := ((C7_dry_run_amended pNoDesc .ok s0 rfl).2.2 descTypeError rfl).1
  rw [h]
  rfl

/-!  Claim C10: keyword validation at registration. -/

/-- C10 counterexample.  dependencies=3 (an int) raises ValueError — a
sibling of TypeError, not a TypeError-class error — and
dependencies="ab" (a string, not a list-like collection of strings)
raises nothing at all: list("ab") silently turns it into the two
one-character strings. -/
theorem C10_counterexample :
    Pipeline.register_pipe [] false "p" (some (.patom (.pint 3))) none none =
      .error (.valueError (invalidTypeMsg "dependencies")) ∧
    Pipeline.register_pipe [] false "p" (some (.patom (.pstr "ab"))) none none =
      .ok [{ name := "p", dependencies := [.pstr "a", .pstr "b"] }] :=
  ⟨rfl, rfl⟩

/-- C10 amended.  A keyword value that list() cannot iterate (an int, or
None arriving via the attribute lookup) raises ValueError — not a
TypeError-class error — at registration time, before the pipe is stored;
an iterable non-list value is silently coerced by list() instead of
raising; element types are never checked; and a pipe registered with
genuine list values is stored with exactly those lists. -/
theorem C10_validation_amended (pipes : List RegPipe) (name : String)
    (xs ys zs : List PyAtom)
    (hdup : pipes.any (fun q => q.name = name) = false) :
    Pipeline.register_pipe pipes false name
        (some (.plist xs)) (some (.plist ys)) (some (.plist zs)) =
      .ok (pipes ++ [{ name := name, dependencies := xs,
                       triggers := ys, replaces := zs }]) ∧
    (∀ (n : Int) (v₂ v₃ : Option PyVal),
      Pipeline.register_pipe pipes false name
          (some (.patom (.pint n))) v₂ v₃ =
        .error (.valueError (invalidTypeMsg "dependencies"))) := by
  constructor
  · simp [Pipeline.register_pipe, Pipe.init, parseListKeyword, coerceList, hdup]
  · intro n v₂ v₃
    simp [Pipeline.register_pipe, Pipe.init, parseListKeyword, coerceList]

/-- Witness for C10 amended at a concrete registration. -/
theorem C10_validation_amended_witness :
    Pipeline.register_pipe [] false "q"
        (some (.plist [.pstr "x"])) (some (.plist [])) (some (.plist [])) =
      .ok [{ name := "q", dependencies := [.pstr "x"] }] :=
  (C10_validation_amended [] "q" [.pstr "x"] [] [] rfl).1

/-!  Claims C5 and C8: invariants of a completed resolution. -/

/-- After a completed first loop, every scanned pipe is primed, or
excluded (its "excluded" key True), or carries a False "excluded" key
while not being included.  This is what the loop condition guarantees: any
other pipe would have been resolved (hence primed) or would have raised
KeyError. -/
theorem resolveLoop_post
    (resolveF : PipeMeta → Flags → Except PyErr Flags)
    (hFm : ∀ q f g, resolveF q f = .ok g → MLe f g)
    (hFp : ∀ q f g, resolveF q f = .ok g → (g q.name).primed = true) :
    ∀ (scan : List PipeMeta) (f g : Flags),
      Pipeline.resolveLoop resolveF scan f = .ok g →
      ∀ p ∈ scan, (g p.name).primed = true ∨ (g p.name).excluded = some true ∨
        ((g p.name).excluded = some false ∧ (g p.name).included = false) := by
  intro scan
  induction scan with
  | nil => intro f g h p hp; exact absurd hp (List.not_mem_nil p)
  | cons q rest ih =>
    intro f g h p hp
    simp only [Pipeline.resolveLoop] at h
    split at h
    · exact absurd h (by simp)
    · next b hu =>
      split at h
      · next hcond =>
        split at h
        · exact absurd h (by simp)
        · next f1 heq1 =>
          have hMg := resolveLoop_mono resolveF hFm rest _ _ h
          rcases List.mem_cons.mp hp with rfl | hp2
          · exact Or.inl ((hMg p.name).2.2.1 (hFp p _ _ heq1))
          · exact ih _ _ h p hp2
      · next hcond =>
        have hMg := resolveLoop_mono resolveF hFm rest _ _ h
        rcases List.mem_cons.mp hp with rfl | hp2
        · by_cases hpr : (p.name ∈ []) ∨ (f p.name).primed = true
          · rcases hpr with hpr | hpr
            · exact absurd hpr (List.not_mem_nil _)
            · exact Or.inl ((hMg p.name).2.2.1 hpr)
          · have hpr2 : (f p.name).primed = false := by
              rcases hb : (f p.name).primed with - | -
              · rfl
              · exact absurd (Or.inr hb) hpr
            cases hex : (f p.name).excluded with
            | none =>
              have hue : Pipeline._unprimed (f p.name) =
                  .error (.keyError "excluded") := by
                simp [Pipeline._unprimed, hpr2, hex]
              rw [hue] at hu
              exact absurd hu (by simp)
            | some b2 =>
              have hue : Pipeline._unprimed (f p.name) = .ok (!b2) := by
                simp [Pipeline._unprimed, hpr2, hex]
              rw [hue] at hu
              injection hu with hu
              cases b2 with
              | true =>
                refine Or.inr (Or.inl ?_)
                rw [(hMg p.name).2.1]
                exact hex
              | false =>
                have hbt : b = true := by rw [← hu]; rfl
                have hinc : (f p.name).included = false := by
                  subst hbt
                  rcases hi : (f p.name).included with - | -
                  · rfl
                  · exact absurd (by simp [hi]) hcond
                refine Or.inr (Or.inr ⟨?_, ?_⟩)
                · rw [(hMg p.name).2.1]; exact hex
                · rw [(hMg p.name).1]; exact hinc
        · exact ih _ _ h p hp2

/-- C5 (confirmed).  For every pipeline on which resolve() returns (with
no pipe primed beforehand, and unique names), every pipe named in the
replaces list of some pipe that ended up primed has its replaced flag set
and is absent from the call list — however it was itself primed or
triggered. -/
theorem C5_replaced_excluded (reg : List PipeMeta) (fuel : Nat) (f g : Flags)
    (hN : (reg.map PipeMeta.name).Nodup)
    (hclean : ∀ n, (f n).primed = false)
    (hres : Pipeline.resolve reg fuel f = .ok g)
    (p q : PipeMeta) (_hp : p ∈ reg) (hq : q ∈ reg)
    (hprimed : (g q.name).primed = true) (hrep : p.name ∈ q.replaces) :
    (g p.name).replaced = true ∧ p.name ∉ Pipeline.call reg g := by
  have hFm := _resolve_mono reg fuel
  have hFp : ∀ x f g, x ∈ reg → Pipeline._resolve reg fuel x f = .ok g →
      PGood reg f g := fun x f g hx hh => _resolve_pgood reg hN fuel x f g hx hh
  have PG := resolveLoop_pgood reg _ hFm hFp reg (fun x hx => hx) f g hres
  rcases PG q.name hprimed with hpf | hmk
  · rw [hclean q.name] at hpf
    exact absurd hpf (by simp)
  · have hrepl : (g p.name).replaced = true := by
      refine hmk p.name ?_
      rw [metaReplaces_eq reg q hN hq]
      exact hrep
    exact ⟨hrepl, replaced_notin_call reg g p.name hrepl⟩

/-- Witness for C5: the stepE / stepF replacement pipeline of the spec,
resolved from the intended initial state with both pipes included; stepF
is primed and replaces stepE, so stepE is marked replaced and the call
list is exactly [stepF]. -/
theorem C5_replaced_excluded_witness :
    replacedAfter regEF 10 (initStateK ["stepE", "stepF"] []) "stepE" = some true ∧
    inCallAfter regEF 10 (initStateK ["stepE", "stepF"] []) "stepE" = some false := by
  rcases hr : Pipeline.resolve regEF 10 (initStateK ["stepE", "stepF"] []) with e | g
  · have hok : Pipeline.resolveResult regEF 10 (initStateK ["stepE", "stepF"] []) =
        .ok ["stepF"] := rfl
    simp [Pipeline.resolveResult, hr] at hok
  · have hprimed : (g "stepF").primed = true := by
      have hpa : primedAfter regEF 10 (initStateK ["stepE", "stepF"] []) "stepF" =
          some true := rfl
      simp only [primedAfter, hr] at hpa
      exact (Option.some.injEq _ _).mp hpa
    have h5 := C5_replaced_excluded regEF 10 _ g (by decide) (fun n => rfl) hr
      { name := "stepE" } { name := "stepF", replaces := ["stepE"] }
      (by simp [regEF]) (by simp [regEF]) hprimed (by simp)
    refine ⟨?_, ?_⟩
    · simp only [replacedAfter, hr]
      rw [h5.1]
    · simp only [inCallAfter, hr]
      simp [h5.2]

/-- C8 (confirmed).  If resolve() returns (the call list being a function
of the final flags), resolving again with the pipe set and selection
unchanged is a no-op: the flags do not change — every pipe the first pass
primed is skipped by the re-entrancy guard, every other pipe fails the
loop condition for the same reason it did the first time — so the second
call list is identical to the first, whatever fuel the second run gets
(the resolver is never re-entered). -/
theorem C8_idempotent (reg : List PipeMeta) (fuel : Nat) (f g : Flags)
    (h : Pipeline.resolve reg fuel f = .ok g) (fuel2 : Nat) :
    Pipeline.resolve reg fuel2 g = .ok g ∧
    Pipeline.resolveResult reg fuel2 g = .ok (Pipeline.call reg g) ∧
    Pipeline.resolveResult reg fuel f = .ok (Pipeline.call reg g) := by
  have hFm := _resolve_mono reg fuel
  have hFp : ∀ q f g, Pipeline._resolve reg fuel q f = .ok g →
      (g q.name).primed = true := fun q f g hh => _resolve_primes reg fuel q f g hh
  have hpost := resolveLoop_post _ hFm hFp reg f g h
  have hskip : Pipeline.resolve reg fuel2 g = .ok g :=
    resolveLoop_skip_all (Pipeline._resolve reg fuel2) reg g hpost
  refine ⟨hskip, ?_, ?_⟩
  · simp only [Pipeline.resolveResult, hskip]
  · simp only [Pipeline.resolveResult, h]

/-- Witness for C8: the scenario pipeline resolved twice from the intended
initial state, the second time with zero fuel (the resolver cannot be
re-entered at all): the call list is the same. -/
theorem C8_idempotent_witness :
    resolveTwice regC1 10 0 (initStateK ["stepC"] []) =
      .ok ["stepA", "stepB", "stepC", "stepD"] ∧
    Pipeline.resolveResult regC1 10 (initStateK ["stepC"] []) =
      .ok ["stepA", "stepB", "stepC", "stepD"] := by
  have hok : Pipeline.resolveResult regC1 10 (initStateK ["stepC"] []) =
      .ok ["stepA", "stepB", "stepC", "stepD"] := rfl
  refine ⟨?_, hok⟩
  rcases hr : Pipeline.resolve regC1 10 (initStateK ["stepC"] []) with e | g
  · simp [Pipeline.resolveResult, hr] at hok
  · have h8 := C8_idempotent regC1 10 _ g hr 0
    have hcall : Pipeline.call regC1 g = ["stepA", "stepB", "stepC", "stepD"] := by
      have h3 := h8.2.2
      rw [hok] at h3
      injection h3 with h3
      exact h3.symm
    simp only [resolveTwice, hr, h8.2.1, hcall]

end Pyshell
